import Mathlib

/-!
Shallow embedding of the `cloudvol2` GCE volume driver
(`src/driver/gce.go`) and proofs about its specified behaviour.

The driver's interactions with its two external collaborators — the GCE
compute API ("Cloud Disk Capability") and the local filesystem
("Filesystem Capability") — are modelled by a `World` value that holds
the remote/local state together with oracles deciding whether each
capability call succeeds.  Every capability invocation is recorded in an
event log so that claims about which side effects occur can be stated.

Each driver function from `gce.go` is translated to a Lean function that
threads a `World` explicitly; Go's `(value, error)` returns become
`Except`/`GoRes` values, and the possible nil-pointer dereference in
`getVolume` is modelled by an explicit `panics` outcome.
-/

namespace Cloudvol

/-- Modelled from the spec: the `Volume` struct of the `driver` package is
not under `src/` (only its uses in `gce.go` and `driver.go` are); per
spec §3 it has a `Name`, a local mount `Path` (empty when unmounted) and
a `Ready` flag (true iff attached to the local instance). -/
structure Volume where
  name : String
  path : String
  ready : Bool
  deriving Repr, DecidableEq

/-- `gceVolume` from `gce.go`: embeds `Volume` (flattened here) plus the
disk URI and the resolved local device path. -/
structure GceVolume where
  name : String
  path : String
  ready : Bool
  diskURI : String
  devicePath : String
  deriving Repr, DecidableEq

/-- The embedded `Volume` part of a `gceVolume`. -/
def GceVolume.toVolume (v : GceVolume) : Volume :=
  { name := v.name, path := v.path, ready := v.ready }

/-- `compute.AttachedDisk` (the fields `gce.go` reads/writes). -/
structure AttachedDisk where
  deviceName : String
  source : String
  deriving Repr, DecidableEq

/-- `compute.Disk` (the fields `gce.go` reads). -/
structure GceDisk where
  name : String
  selfLink : String
  users : List String
  deriving Repr, DecidableEq

/-- `compute.DiskType` (the fields `gce.go` reads). -/
structure DiskType where
  name : String
  selfLink : String
  deriving Repr, DecidableEq

/-- The `gceDriver` struct (configuration captured at startup plus the
disk-type cache; the live API client and fs handles live in `World`). -/
structure GceDriver where
  project : String
  zone : String
  instanceName : String
  instanceURI : String
  mountPath : String
  diskTypes : Option (List DiskType)

/-- Structured counterparts of the `fmt.Errorf` messages produced in
`gce.go`; each constructor carries the values interpolated into the
corresponding format string. -/
inductive GceError where
  /-- "GCE: error getting info about disk '%s'" -/
  | diskGetError (id : String)
  /-- "GCE: unable to get mount info for disk '%s'" (both failure sites in
  `getVolume`: `getAttachedDisk` error and `mountpath.GetMountPath` error) -/
  | mountInfoError (id : String)
  /-- "GCE: volume '%s' already mounted on '%s'" -/
  | alreadyMounted (id path : String)
  /-- "GCE: volume '%s' not mounted" -/
  | notMounted (id : String)
  /-- "GCE: error attaching volume '%s'" -/
  | attachError (name : String)
  /-- "GCE: error detaching volume '%s'" -/
  | detachError (name : String)
  /-- "GCE: error creating disk '%s'" -/
  | createDiskError (id : String)
  /-- "GCE: error formatting new volume '%s'" -/
  | formatError (id : String)
  /-- "GCE: error creating mount point '%s' for volume '%s'" -/
  | createDirError (mountPoint name : String)
  /-- "GCE: error mounting volume '%s' on '%s'" -/
  | mountError (name mountPoint : String)
  /-- "GCE: error unmounting volume '%s' from '%s'" -/
  | unmountError (name path : String)
  /-- "GCE: error processing option '%s' with value '%s': unknown option" -/
  | invalidOption (key value : String)
  /-- "disk type '%s' not found" -/
  | diskTypeNotFound (name : String)
  /-- error propagated from `loadDiskTypes` (a failed DiskTypes.List call) -/
  | loadDiskTypesError
  /-- "GCE: timeout while waiting for operation ... to complete" -/
  | timeout
  deriving Repr, DecidableEq

/-- Result of a Go function returning `(T, error)` in the usual
one-of-the-two discipline, with an explicit outcome for a runtime panic
(nil-pointer dereference). -/
inductive GoRes (α : Type) where
  | panics
  | err (e : GceError)
  | ok (a : α)
  deriving Repr, DecidableEq

/-- `Mount` in Go returns the pair `(path, error)` and — uniquely among
the driver's operations — can return a non-empty path *together with* a
non-nil error (the already-mounted case), so its result is modelled as
the literal pair. -/
inductive MountResult where
  | panics
  | res (path : String) (e : Option GceError)
  deriving Repr, DecidableEq

/-- One capability invocation, recorded in the world's event log. -/
inductive Event where
  | disksGet (name : String)
  | instancesGet
  | getMountPath (device : String)
  | diskTypesList
  | disksInsert (name : String) (sizeGb : Int) (typeURI : String)
  | instancesAttach (deviceName source : String)
  | instancesDetach (name : String)
  | fsCreateDir (dir : String)
  | fsMount (device target : String)
  | fsUnmount (target : String)
  | fsRemoveDir (dir : String)
  | fsFormat (target : String)
  deriving Repr, DecidableEq

/-- Read-only capability invocations: queries that mutate neither remote
nor local state. -/
def Event.isRead : Event → Bool
  | .disksGet _ => true
  | .instancesGet => true
  | .getMountPath _ => true
  | .diskTypesList => true
  | _ => false

/-- Invocations of the Cloud Disk capability (reads and writes). -/
def Event.isCloudDiskOp : Event → Bool
  | .disksGet _ => true
  | .instancesGet => true
  | .diskTypesList => true
  | .disksInsert _ _ _ => true
  | .instancesAttach _ _ => true
  | .instancesDetach _ => true
  | _ => false

/-- Invocations of the Filesystem capability. -/
def Event.isFilesystemOp : Event → Bool
  | .fsCreateDir _ => true
  | .fsMount _ _ => true
  | .fsUnmount _ => true
  | .fsRemoveDir _ => true
  | .fsFormat _ => true
  | _ => false

/-- The environment: remote GCE state, local filesystem state, success
oracles for each fallible capability call, and the event log. -/
structure World where
  /-- disks existing in the project/zone (`Disks.Get` searches by name) -/
  disks : List GceDisk
  /-- the local instance's attached-disk list (`Instances.Get(...).Disks`) -/
  instanceDisks : List AttachedDisk
  /-- whether `Instances.Get` succeeds -/
  instanceGetOk : Bool
  /-- local mount table: (device path, mount point) -/
  mounts : List (String × String)
  /-- whether `mountpath.GetMountPath` fails for a given device -/
  mountPathErr : String → Bool
  fsCreateDirOk : Bool
  fsMountOk : Bool
  fsUnmountOk : Bool
  fsRemoveDirOk : Bool
  fsFormatOk : Bool
  /-- whether the `Instances.AttachDisk` API call itself succeeds -/
  attachCallOk : Bool
  /-- whether the `Instances.DetachDisk` API call itself succeeds -/
  detachCallOk : Bool
  /-- whether the `Disks.Insert` API call itself succeeds -/
  insertCallOk : Bool
  /-- `TargetLink` reported by the `Disks.Insert` operation -/
  insertTargetLink : String
  /-- per-poll status of the attach operation (`none` = fetch error) -/
  attachStatus : Nat → Option String
  /-- per-poll status of the detach operation -/
  detachStatus : Nat → Option String
  /-- per-poll status of the insert operation -/
  insertStatus : Nat → Option String
  /-- whether `DiskTypes.List` succeeds -/
  diskTypesLoadOk : Bool
  /-- the listing a successful `DiskTypes.List` returns -/
  diskTypesListing : List DiskType
  /-- cache contents left behind by a failed (partial) listing -/
  diskTypesPartial : List DiskType
  /-- log of capability invocations made so far -/
  log : List Event

/-- Append a capability invocation to the log. -/
def World.logEvent (w : World) (e : Event) : World :=
  { w with log := w.log ++ [e] }

/-- `devicePathFormat = "/dev/disk/by-id/google-%s"` applied to a name. -/
def devicePathFormat (name : String) : String :=
  "/dev/disk/by-id/google-" ++ name

/-- `operationPollInterval` (100ms), in milliseconds. -/
def operationPollIntervalMs : Nat := 100

/-- `operationWaitTimeout` (5s), in milliseconds. -/
def operationWaitTimeoutMs : Nat := 5000

/-- `defaultVolumeSizeGb = 10`. -/
def defaultVolumeSizeGb : Int := 10

/-- Number of poll iterations `waitForOp` performs before its deadline:
iteration `i` of the Go loop runs at wall-clock time `i * 100ms` (the
loop polls once immediately, then sleeps 100ms per iteration), and the
loop condition `time.Since(start) < operationWaitTimeout` admits exactly
the iterations with `i * 100 < 5000`. -/
def maxPolls : Nat := operationWaitTimeoutMs / operationPollIntervalMs

/-- The polling loop of `waitForOp`, counting down remaining iterations
while tracking the current poll index.  A poll observes `status i`;
`none` models a failed `ZoneOperations.Get` (logged and ignored by the Go
code), and only a successfully fetched `"DONE"` status stops the loop. -/
def waitForOpFrom (status : Nat → Option String) : Nat → Nat → Bool
  | 0, _ => false
  | remaining + 1, i =>
    if status i == some "DONE" then true
    else waitForOpFrom status remaining (i + 1)

/-- `waitForOp`: poll until `"DONE"` or until the 5s budget (50 polls at
100ms) elapses, in which case the timeout error is returned. -/
def waitForOp (status : Nat → Option String) : Except GceError Unit :=
  if waitForOpFrom status maxPolls 0 then .ok () else .error .timeout

/-- `stringInSlice` from `gce.go`. -/
def stringInSlice (slice : List String) (target : String) : Bool :=
  slice.any (fun candidate => candidate == target)

/-- `path.Join(d.mountPath, vol.Name)` for the clean, slash-free
components the driver uses. -/
def pathJoin (a b : String) : String :=
  a ++ "/" ++ b

/-- Environment semantics of `mountpath.GetMountPath(device)`: fails when
the oracle says so, otherwise returns the device's current mount point,
or `""` when the device is not mounted. -/
def World.getMountPath (w : World) (device : String) :
    Except Unit String × World :=
  let w := w.logEvent (.getMountPath device)
  if w.mountPathErr device then (.error (), w)
  else (.ok (((w.mounts.find? (fun m => m.1 == device)).map (fun m => m.2)).getD ""), w)

/-- Environment semantics of a completed GCE attach operation: the local
instance's URI is added to the disk's `Users` and an `AttachedDisk` entry
with the requested device name appears in the instance's disk list. -/
def World.applyAttach (w : World) (deviceName diskURI instanceURI : String) : World :=
  { w with
    disks := w.disks.map (fun dk =>
      if dk.selfLink == diskURI then { dk with users := dk.users ++ [instanceURI] } else dk)
    instanceDisks := w.instanceDisks ++ [{ deviceName := deviceName, source := diskURI }] }

/-- Environment semantics of a completed GCE detach operation. -/
def World.applyDetach (w : World) (deviceName diskURI instanceURI : String) : World :=
  { w with
    disks := w.disks.map (fun dk =>
      if dk.selfLink == diskURI then { dk with users := dk.users.filter (fun u => u != instanceURI) } else dk)
    instanceDisks := w.instanceDisks.filter (fun a => a.deviceName != deviceName) }

/-- Environment semantics of a completed GCE disk-insert operation. -/
def World.applyInsert (w : World) (name : String) : World :=
  { w with disks := w.disks ++ [{ name := name, selfLink := w.insertTargetLink, users := [] }] }

/-- Environment semantics of `fs.Mount(device, target)` succeeding. -/
def World.applyFsMount (w : World) (device target : String) : World :=
  { w with mounts := (device, target) :: w.mounts }

/-- Environment semantics of `fs.Unmount(target)` succeeding. -/
def World.applyFsUnmount (w : World) (target : String) : World :=
  { w with mounts := w.mounts.filter (fun m => m.2 != target) }

/-- `getAttachedDisk` from `gce.go`: fetch the instance and scan its disk
list for an attachment whose `Source` is the disk's URI.  Faithfully to
the Go code, a successful call with no matching attachment returns
`(nil, nil)`, i.e. `.ok none`. -/
def getAttachedDisk (w : World) (diskURI : String) :
    Except Unit (Option AttachedDisk) × World :=
  let w := w.logEvent .instancesGet
  if w.instanceGetOk then
    (.ok (w.instanceDisks.find? (fun a => a.source == diskURI)), w)
  else (.error (), w)

/-- `getVolume` from `gce.go`.  When the disk is attached and
`getAttachedDisk` returns `.ok none` (a nil attachment with a nil
error), the Go code evaluates `attachment.DeviceName` on a nil pointer,
which is a runtime panic: modelled by the `.panics` outcome. -/
def getVolume (d : GceDriver) (w : World) (id : String) :
    GoRes GceVolume × World :=
  let w := w.logEvent (.disksGet id)
  match w.disks.find? (fun dk => dk.name == id) with
  | none => (.err (.diskGetError id), w)
  | some disk =>
    if stringInSlice disk.users d.instanceURI then
      match getAttachedDisk w disk.selfLink with
      | (.error _, w) => (.err (.mountInfoError id), w)
      | (.ok none, w) => (.panics, w)
      | (.ok (some attachment), w) =>
        let devicePath := devicePathFormat attachment.deviceName
        match w.getMountPath devicePath with
        | (.error _, w) => (.err (.mountInfoError id), w)
        | (.ok p, w) =>
          (.ok { name := disk.name, path := p, ready := true,
                 diskURI := disk.selfLink, devicePath := devicePath }, w)
    else
      (.ok { name := disk.name, path := "", ready := false,
             diskURI := disk.selfLink, devicePath := "" }, w)

/-- `Get` from `gce.go`: `getVolume`, projected to the embedded `Volume`. -/
def Get (d : GceDriver) (w : World) (id : String) : GoRes Volume × World :=
  match getVolume d w id with
  | (.panics, w) => (.panics, w)
  | (.err e, w) => (.err e, w)
  | (.ok vol, w) => (.ok vol.toVolume, w)

/-- `attachDisk` from `gce.go`: issue `Instances.AttachDisk` (device name
= volume name, source = disk URI), wait for the operation, and only on
success set `devicePath` and `Ready`. -/
def attachDisk (d : GceDriver) (w : World) (vol : GceVolume) :
    Except GceError GceVolume × World :=
  let devicePath := devicePathFormat vol.name
  let w := w.logEvent (.instancesAttach vol.name vol.diskURI)
  if w.attachCallOk then
    match waitForOp w.attachStatus with
    | .error _ => (.error (.attachError vol.name), w)
    | .ok _ =>
      (.ok { vol with devicePath := devicePath, ready := true },
       w.applyAttach vol.name vol.diskURI d.instanceURI)
  else (.error (.attachError vol.name), w)

/-- `detachDisk` from `gce.go`. -/
def detachDisk (d : GceDriver) (w : World) (vol : GceVolume) :
    Except GceError GceVolume × World :=
  let w := w.logEvent (.instancesDetach vol.name)
  if w.detachCallOk then
    match waitForOp w.detachStatus with
    | .error _ => (.error (.detachError vol.name), w)
    | .ok _ =>
      (.ok { vol with devicePath := "" },
       w.applyDetach vol.name vol.diskURI d.instanceURI)
  else (.error (.detachError vol.name), w)

/-- `mountDisk` from `gce.go`: create the mount-point directory, mount
the device there, and record `Path` on success. -/
def mountDisk (d : GceDriver) (w : World) (vol : GceVolume) :
    Except GceError GceVolume × World :=
  let mountPoint := pathJoin d.mountPath vol.name
  let w := w.logEvent (.fsCreateDir mountPoint)
  if w.fsCreateDirOk then
    let w := w.logEvent (.fsMount vol.devicePath mountPoint)
    if w.fsMountOk then
      (.ok { vol with path := mountPoint }, w.applyFsMount vol.devicePath mountPoint)
    else (.error (.mountError vol.name mountPoint), w)
  else (.error (.createDirError mountPoint vol.name), w)

/-- `unmountDisk` from `gce.go`: unmount the device (failure aborts);
then attempt to remove the mount-point directory — per the Go code a
`RemoveDir` failure is only logged as a warning, it causes no early
return and does not affect the result — and clear `Path`. -/
def unmountDisk (_d : GceDriver) (w : World) (vol : GceVolume) :
    Except GceError GceVolume × World :=
  let w := w.logEvent (.fsUnmount vol.path)
  if w.fsUnmountOk then
    let w := w.applyFsUnmount vol.path
    let w := w.logEvent (.fsRemoveDir vol.path)
    (.ok { vol with path := "" }, w)
  else (.error (.unmountError vol.name vol.path), w)

/-- `Mount` from `gce.go`: query state; if already mounted return the
existing path together with the already-mounted error; otherwise attach
if not ready, then mount. -/
def Mount (d : GceDriver) (w : World) (id : String) : MountResult × World :=
  match getVolume d w id with
  | (.panics, w) => (.panics, w)
  | (.err e, w) => (.res "" (some e), w)
  | (.ok vol, w) =>
    if vol.path != "" then
      (.res vol.path (some (.alreadyMounted id vol.path)), w)
    else
      match (if !vol.ready then attachDisk d w vol else (.ok vol, w)) with
      | (.error e, w) => (.res "" (some e), w)
      | (.ok vol, w) =>
        match mountDisk d w vol with
        | (.error e, w) => (.res "" (some e), w)
        | (.ok vol, w) => (.res vol.path none, w)

/-- Look a disk type up by name (Go map indexing on `d.diskTypes`). -/
def findDiskType (types : List DiskType) (name : String) : Option DiskType :=
  types.find? (fun dt => dt.name == name)

/-- `loadDiskTypes` from `gce.go`: one full `DiskTypes.List` call.  The
Go code assigns a fresh map to `d.diskTypes` *before* paging, so a
failed listing still leaves a (partial) non-nil cache behind; the
partial contents are an environment oracle. -/
def loadDiskTypes (w : World) : Except Unit Unit × List DiskType × World :=
  let w := w.logEvent .diskTypesList
  if w.diskTypesLoadOk then (.ok (), w.diskTypesListing, w)
  else (.error (), w.diskTypesPartial, w)

/-- The `for !fresh` loop of `getDiskType`: if the cache is nil, load it
(marking it `fresh`); return on a hit; on a miss invalidate the cache and
re-enter the loop, which exits with the not-found error once `fresh`.
The loop terminates because a load sets `fresh` and a miss on a populated
cache nils it, so the measure `(fresh, cache populated?)` decreases. -/
def getDiskTypeLoop (w : World) (name : String) (fresh : Bool)
    (cache : Option (List DiskType)) :
    Except GceError DiskType × Option (List DiskType) × World :=
  if fresh then (.error (.diskTypeNotFound name), cache, w)
  else
    match cache with
    | none =>
      match loadDiskTypes w with
      | (.error _, c, w) => (.error .loadDiskTypesError, some c, w)
      | (.ok _, c, w) =>
        match findDiskType c name with
        | some dt => (.ok dt, some c, w)
        | none => getDiskTypeLoop w name true none
    | some m =>
      match findDiskType m name with
      | some dt => (.ok dt, some m, w)
      | none => getDiskTypeLoop w name false none
termination_by (if fresh then 0 else if cache.isSome then 2 else 1)
decreasing_by
  · simp_all
  · simp_all

/-- `getDiskType` from `gce.go`: enter the loop with `fresh := false`
and the driver's current cache. -/
def getDiskType (w : World) (cache : Option (List DiskType)) (name : String) :
    Except GceError DiskType × Option (List DiskType) × World :=
  getDiskTypeLoop w name false cache

/-- `gceVolumeOptions` from `gce.go`. -/
structure GceVolumeOptions where
  sizeGb : Int
  diskTypeURI : String
  deriving Repr, DecidableEq

/-- Digits of a decimal literal, most significant first; `none` if empty
or any character is not a digit. -/
def goParseDigits (cs : List Char) : Option Nat :=
  match cs with
  | [] => none
  | _ => cs.foldl (fun acc c =>
      match acc with
      | none => none
      | some n => if c.isDigit then some (n * 10 + (c.toNat - 48)) else none)
      (some 0)

/-- `strconv.ParseInt(value, 10, 64)`: optional sign, at least one
digit, all digits, and the value must fit in a signed 64-bit integer. -/
def goParseInt64 (s : String) : Option Int :=
  let (neg, digits) :=
    match s.data with
    | '+' :: rest => (false, rest)
    | '-' :: rest => (true, rest)
    | cs => (false, cs)
  match goParseDigits digits with
  | none => none
  | some n =>
    let v : Int := if neg then -(n : Int) else (n : Int)
    if -(2 ^ 63) ≤ v ∧ v < 2 ^ 63 then some v else none

/-- `parseVolumeOption` from `gce.go`.  Note the Go bug this preserves:
in the `sizeGb` and `type` cases the `err` inside the `if` statement
shadows the outer `err` declared by `var err error`, so a failed
`ParseInt` or `getDiskType` is silently discarded and the function
returns nil; only an unrecognized key produces an error. -/
def parseVolumeOption (w : World) (cache : Option (List DiskType))
    (opts : GceVolumeOptions) (key value : String) :
    Except Unit GceVolumeOptions × Option (List DiskType) × World :=
  match key with
  | "sizeGb" =>
    match goParseInt64 value with
    | some sizeGb => (.ok { opts with sizeGb := sizeGb }, cache, w)
    | none => (.ok opts, cache, w)
  | "type" =>
    match getDiskType w cache value with
    | (.ok diskType, cache, w) => (.ok { opts with diskTypeURI := diskType.selfLink }, cache, w)
    | (.error _, cache, w) => (.ok opts, cache, w)
  | _ => (.error (), cache, w)

/-- The `for key, value := range opts` loop of `parseVolumeOptions`; a
Go map's iteration order is unspecified, so the option set is embedded
as an association list iterated in order.  The first failing option
aborts the whole call with the invalid-option error naming it. -/
def parseVolumeOptionsLoop (w : World) (cache : Option (List DiskType))
    (parsed : GceVolumeOptions) (entries : List (String × String)) :
    Except GceError GceVolumeOptions × Option (List DiskType) × World :=
  match entries with
  | [] => (.ok parsed, cache, w)
  | (key, value) :: rest =>
    match parseVolumeOption w cache parsed key value with
    | (.error _, cache, w) => (.error (.invalidOption key value), cache, w)
    | (.ok parsed, cache, w) => parseVolumeOptionsLoop w cache parsed rest

/-- `parseVolumeOptions` from `gce.go`: start from the defaults
(`sizeGb = 10`, no disk type) and fold the options in. -/
def parseVolumeOptions (w : World) (cache : Option (List DiskType))
    (entries : List (String × String)) :
    Except GceError GceVolumeOptions × Option (List DiskType) × World :=
  parseVolumeOptionsLoop w cache { sizeGb := defaultVolumeSizeGb, diskTypeURI := "" } entries

/-- `createDisk` from `gce.go`: issue `Disks.Insert` with the parsed
size and type, wait for the operation, and build the volume with
`diskURI = op.TargetLink`. -/
def createDisk (w : World) (id : String) (opts : GceVolumeOptions) :
    Except GceError GceVolume × World :=
  let w := w.logEvent (.disksInsert id opts.sizeGb opts.diskTypeURI)
  if w.insertCallOk then
    match waitForOp w.insertStatus with
    | .error _ => (.error (.createDiskError id), w)
    | .ok _ =>
      (.ok { name := id, path := "", ready := false,
             diskURI := w.insertTargetLink, devicePath := "" },
       w.applyInsert id)
  else (.error (.createDiskError id), w)

/-- `Create` from `gce.go`: parse options (updating the disk-type cache
in the driver), create the disk, attach it, format it, mount it. -/
def Create (d : GceDriver) (w : World) (id : String)
    (optsMap : List (String × String)) : GoRes Volume × GceDriver × World :=
  match parseVolumeOptions w d.diskTypes optsMap with
  | (.error e, cache, w) => (.err e, { d with diskTypes := cache }, w)
  | (.ok opts, cache, w) =>
    let d := { d with diskTypes := cache }
    match createDisk w id opts with
    | (.error e, w) => (.err e, d, w)
    | (.ok vol, w) =>
      match attachDisk d w vol with
      | (.error e, w) => (.err e, d, w)
      | (.ok vol, w) =>
        let w := w.logEvent (.fsFormat vol.devicePath)
        if w.fsFormatOk then
          match mountDisk d w vol with
          | (.error e, w) => (.err e, d, w)
          | (.ok vol, w) => (.ok vol.toVolume, d, w)
        else (.err (.formatError id), d, w)

/-- `Unmount` from `gce.go`: query state; fail if not mounted; otherwise
unmount the device, then detach the disk. -/
def Unmount (d : GceDriver) (w : World) (id : String) : GoRes Unit × World :=
  match getVolume d w id with
  | (.panics, w) => (.panics, w)
  | (.err e, w) => (.err e, w)
  | (.ok vol, w) =>
    if vol.path == "" then (.err (.notMounted id), w)
    else
      match unmountDisk d w vol with
      | (.error e, w) => (.err e, w)
      | (.ok vol, w) =>
        match detachDisk d w vol with
        | (.error e, w) => (.err e, w)
        | (.ok _, w) => (.ok (), w)

/-! ### Worlds and drivers used as concrete witnesses -/

/-- The world `w` extended by appending the events `δ` to its log, all
other state unchanged. -/
def World.withLog (w : World) (δ : List Event) : World :=
  { w with log := w.log ++ δ }

/-- `w'` is `w` after read-only capability invocations: no remote or
local state changed, only read events were appended to the log. -/
def World.readOnlyExtends (w w' : World) : Prop :=
  ∃ δ, w' = w.withLog δ ∧ δ.all Event.isRead = true

/-- A driver configuration for concrete scenarios. -/
def baseDriver : GceDriver :=
  { project := "p", zone := "z", instanceName := "inst", instanceURI := "me",
    mountPath := "/mnt", diskTypes := none }

/-- A benign world: no disks, every capability call succeeds, operations
complete on the first poll. -/
def baseWorld : World :=
  { disks := [], instanceDisks := [], instanceGetOk := true, mounts := [],
    mountPathErr := fun _ => false, fsCreateDirOk := true, fsMountOk := true,
    fsUnmountOk := true, fsRemoveDirOk := true, fsFormatOk := true,
    attachCallOk := true, detachCallOk := true, insertCallOk := true,
    insertTargetLink := "link-new", attachStatus := fun _ => some "DONE",
    detachStatus := fun _ => some "DONE", insertStatus := fun _ => some "DONE",
    diskTypesLoadOk := true, diskTypesListing := [], diskTypesPartial := [],
    log := [] }

/-- A world with one disk `v` not attached to the local instance. -/
def worldUnattached : World :=
  { baseWorld with disks := [{ name := "v", selfLink := "link-v", users := [] }] }

/-- A world with disk `v` attached to the local instance (consistently:
`Users` lists the instance and the instance lists the attachment) but
not mounted. -/
def worldAttached : World :=
  { baseWorld with
    disks := [{ name := "v", selfLink := "link-v", users := ["me"] }],
    instanceDisks := [{ deviceName := "v", source := "link-v" }] }

/-- `worldAttached` with the disk's device mounted at `/mnt/v`. -/
def worldMounted : World :=
  { worldAttached with mounts := [("/dev/disk/by-id/google-v", "/mnt/v")] }

/-- An inconsistent world: the cloud reports disk `v`'s `Users` as
containing the local instance URI, but the instance's attached-disk list
has no entry whose `Source` is the disk's `SelfLink`. -/
def worldInconsistent : World :=
  { baseWorld with
    disks := [{ name := "v", selfLink := "link-v", users := ["me"] }],
    instanceDisks := [] }

/-- `worldAttached` where `mountpath.GetMountPath` fails for every
device. -/
def worldMountPathErr : World :=
  { worldAttached with mountPathErr := fun _ => true }

/-- `worldMounted` where removing the mount-point directory fails. -/
def worldRemoveDirFails : World :=
  { worldMounted with fsRemoveDirOk := false }

/-- A world whose disk-type listing contains only the type `ssd`. -/
def worldTypes : World :=
  { baseWorld with diskTypesListing := [{ name := "ssd", selfLink := "link-ssd" }] }

/-- An operation-status oracle that never reports `"DONE"` (every fetch
fails). -/
def statusNever : Nat → Option String := fun _ => none

/-- An operation-status oracle whose first three fetches fail and whose
fourth reports `"DONE"`. -/
def statusDoneAt3 : Nat → Option String :=
  fun i => if i == 3 then some "DONE" else none

/-! ### Theorems -/

theorem withLog_trans (w : World) (a b : List Event) :
    (w.withLog a).withLog b = w.withLog (a ++ b) := by
  simp [World.withLog]

theorem logEvent_eq_withLog (w : World) (e : Event) :
    w.logEvent e = w.withLog [e] := rfl

/-- C1: for every volume name for which `Get` returns a Volume without
error, `Path ≠ "" → Ready = true`; `Mount` and `Unmount` observe the
volume through the very same `getVolume` query, so the statement is
proved for `getVolume` and transported to `Get`. -/
theorem getVolume_path_implies_ready
    (d : GceDriver) (w : World) (id : String) (gv : GceVolume)
    (h : (getVolume d w id).1 = .ok gv) (hp : gv.path ≠ "") :
    gv.ready = true ∧ (Get d w id).1 = .ok gv.toVolume ∧
      gv.toVolume.ready = true := by
  have hready : gv.ready = true := by
    rcases hgv : getVolume d w id with ⟨r, w₂⟩
    rw [hgv] at h
    simp only at h
    subst h
    unfold getVolume at hgv
    simp only [] at hgv
    split at hgv
    · simp at hgv
    · split at hgv
      · split at hgv
        · simp at hgv
        · simp at hgv
        · split at hgv
          · simp at hgv
          · rw [Prod.mk.injEq] at hgv
            obtain ⟨hv, -⟩ := hgv
            rw [GoRes.ok.injEq] at hv
            rw [← hv]
      · rw [Prod.mk.injEq] at hgv
        obtain ⟨hv, -⟩ := hgv
        rw [GoRes.ok.injEq] at hv
        rw [← hv] at hp
        simp at hp
  refine ⟨hready, ?_, ?_⟩
  · rcases hgv : getVolume d w id with ⟨r, w₂⟩
    rw [hgv] at h
    simp only at h
    subst h
    simp [Get, hgv]
  · simp [GceVolume.toVolume, hready]

/-- Witness for C1 at a concrete attached-and-mounted world. -/
theorem getVolume_path_implies_ready_witness :
    ({ name := "v", path := "/mnt/v", ready := true, diskURI := "link-v",
       devicePath := "/dev/disk/by-id/google-v" } : GceVolume).ready = true ∧
    (Get baseDriver worldMounted "v").1 =
      .ok { name := "v", path := "/mnt/v", ready := true } ∧
    (({ name := "v", path := "/mnt/v", ready := true, diskURI := "link-v",
        devicePath := "/dev/disk/by-id/google-v" } : GceVolume)).toVolume.ready = true := by
  have := getVolume_path_implies_ready baseDriver worldMounted "v"
    { name := "v", path := "/mnt/v", ready := true, diskURI := "link-v",
      devicePath := "/dev/disk/by-id/google-v" }
    (by decide) (by decide)
  exact ⟨this.1, this.2.1, this.2.2⟩

theorem waitForOpFrom_eq_false (status : Nat → Option String) (n i : Nat)
    (h : ∀ j, i ≤ j → j < i + n → status j ≠ some "DONE") :
    waitForOpFrom status n i = false := by
  induction n generalizing i with
  | zero => rfl
  | succ m ih =>
    unfold waitForOpFrom
    have hi : status i ≠ some "DONE" := h i (Nat.le_refl i) (by omega)
    rw [if_neg (by simpa using hi)]
    exact ih (i + 1) (fun j h1 h2 => h j (by omega) (by omega))

theorem waitForOpFrom_eq_true (status : Nat → Option String) (n i k : Nat)
    (hik : i ≤ k) (hkn : k < i + n) (hk : status k = some "DONE")
    (hmin : ∀ j, i ≤ j → j < k → status j ≠ some "DONE") :
    waitForOpFrom status n i = true := by
  induction n generalizing i with
  | zero => omega
  | succ m ih =>
    unfold waitForOpFrom
    by_cases hi : i = k
    · subst hi
      rw [if_pos (by simpa using hk)]
    · have hne : status i ≠ some "DONE" := hmin i (Nat.le_refl i) (by omega)
      rw [if_neg (by simpa using hne)]
      exact ih (i + 1) (by omega) (by omega)
        (fun j h1 h2 => hmin j (by omega) h2)

/-- C4: `waitForOp` polls at the fixed 100ms interval (time is modelled
by the poll index: iteration `i` of the Go loop runs at `i·100ms`, and
the 5s budget admits exactly `maxPolls = 5000/100 = 50` iterations).  A
status fetch failure (`status i = none`) is non-fatal — the success case
below allows arbitrarily many failed fetches before the first `"DONE"`.
The call returns success the first time the status is `"DONE"`, and the
timeout error if the budget elapses without the status reaching
`"DONE"`. -/
theorem waitForOp_spec (status : Nat → Option String) :
    operationPollIntervalMs = 100 ∧ operationWaitTimeoutMs = 5000 ∧
    maxPolls = 50 ∧
    ((∀ i, i < maxPolls → status i ≠ some "DONE") →
      waitForOp status = .error .timeout) ∧
    (∀ k, k < maxPolls → status k = some "DONE" →
      (∀ j, j < k → status j ≠ some "DONE") →
      waitForOp status = .ok ()) := by
  refine ⟨rfl, rfl, rfl, ?_, ?_⟩
  · intro h
    unfold waitForOp
    rw [waitForOpFrom_eq_false status maxPolls 0
      (fun j _ hj => h j (by omega))]
    rfl
  · intro k hk hdone hmin
    unfold waitForOp
    rw [waitForOpFrom_eq_true status maxPolls 0 k (Nat.zero_le k)
      (by omega) hdone (fun j _ hj => hmin j hj)]
    rfl

/-- Witness for C4: a never-done operation times out; an operation whose
fetches fail three times and then report `"DONE"` succeeds. -/
theorem waitForOp_spec_witness :
    waitForOp statusNever = .error .timeout ∧
    waitForOp statusDoneAt3 = .ok () := by
  constructor
  · exact (waitForOp_spec statusNever).2.2.2.1 (by intro i _; simp [statusNever])
  · exact (waitForOp_spec statusDoneAt3).2.2.2.2 3 (by decide) (by decide)
      (by decide)

/-- C9: in a reachable inconsistent state — the disk's `Users` list
contains the local instance URI but no entry of the instance's
attached-disk list has the disk's `SelfLink` as `Source` —
`getAttachedDisk` returns a nil attachment with a nil error and
`getVolume` dereferences `attachment.DeviceName` on nil, so `Get`,
`Mount` and `Unmount` all panic instead of returning an error. -/
theorem getVolume_nil_attachment_panics
    (d : GceDriver) (w : World) (id : String) (disk : GceDisk)
    (hd : w.disks.find? (fun dk => dk.name == id) = some disk)
    (hu : stringInSlice disk.users d.instanceURI = true)
    (hio : w.instanceGetOk = true)
    (hna : w.instanceDisks.find? (fun a => a.source == disk.selfLink) = none) :
    (getVolume d w id).1 = .panics ∧ (Get d w id).1 = .panics ∧
    (Mount d w id).1 = .panics ∧ (Unmount d w id).1 = .panics := by
  have hgv : getVolume d w id =
      (.panics, (w.logEvent (.disksGet id)).logEvent .instancesGet) := by
    unfold getVolume getAttachedDisk
    simp [World.logEvent, hd, hu, hio, hna]
  exact ⟨by simp [hgv], by simp [Get, hgv], by simp [Mount, hgv],
    by simp [Unmount, hgv]⟩

/-- Witness for C9 at a concrete inconsistent world. -/
theorem getVolume_nil_attachment_panics_witness :
    (getVolume baseDriver worldInconsistent "v").1 = .panics ∧
    (Get baseDriver worldInconsistent "v").1 = .panics ∧
    (Mount baseDriver worldInconsistent "v").1 = .panics ∧
    (Unmount baseDriver worldInconsistent "v").1 = .panics :=
  getVolume_nil_attachment_panics baseDriver worldInconsistent "v"
    { name := "v", selfLink := "link-v", users := ["me"] }
    (by decide) (by decide) (by decide) (by decide)

theorem getAttachedDisk_snd (w : World) (uri : String) :
    (getAttachedDisk w uri).2 = w.logEvent .instancesGet := by
  unfold getAttachedDisk
  dsimp only
  split <;> rfl

theorem getMountPath_snd (w : World) (dev : String) :
    (w.getMountPath dev).2 = w.logEvent (.getMountPath dev) := by
  unfold World.getMountPath
  dsimp only
  split <;> rfl

theorem logEvent_logEvent (w : World) (a b : Event) :
    (w.logEvent a).logEvent b = w.withLog [a, b] := by
  simp [World.logEvent, World.withLog]

/-- `getVolume` performs only read-only capability invocations: its
output world is the input world plus read events in the log. -/
theorem getVolume_world (d : GceDriver) (w : World) (id : String) :
    w.readOnlyExtends (getVolume d w id).2 := by
  unfold getVolume
  dsimp only
  split
  · exact ⟨[.disksGet id], rfl, rfl⟩
  · split
    · split
      · next heq =>
        have h2 := congrArg Prod.snd heq
        rw [getAttachedDisk_snd] at h2
        dsimp only at h2
        rw [← h2, logEvent_logEvent]
        exact ⟨[.disksGet id, .instancesGet], rfl, rfl⟩
      · next heq =>
        have h2 := congrArg Prod.snd heq
        rw [getAttachedDisk_snd] at h2
        dsimp only at h2
        rw [← h2, logEvent_logEvent]
        exact ⟨[.disksGet id, .instancesGet], rfl, rfl⟩
      · next att heq =>
        have h2 := congrArg Prod.snd heq
        rw [getAttachedDisk_snd] at h2
        dsimp only at h2
        split
        · next heq3 =>
          have h3 := congrArg Prod.snd heq3
          rw [getMountPath_snd] at h3
          dsimp only at h3
          rw [← h3, ← h2, logEvent_logEvent, logEvent_eq_withLog, withLog_trans]
          exact ⟨_, rfl, rfl⟩
        · next heq3 =>
          have h3 := congrArg Prod.snd heq3
          rw [getMountPath_snd] at h3
          dsimp only at h3
          rw [← h3, ← h2, logEvent_logEvent, logEvent_eq_withLog, withLog_trans]
          exact ⟨_, rfl, rfl⟩
    · exact ⟨[.disksGet id], rfl, rfl⟩

/-- Counterexample for C3: at a concrete world whose disk `v` exists but
is not mounted, `Unmount` does return the not-mounted error — but its
query path has already invoked the Cloud Disk capability
(`Disks.Get`), so "without invoking any Cloud Disk capability
operation" is false on the code. -/
theorem unmount_not_mounted_invokes_cloud :
    (Unmount baseDriver worldUnattached "v").1 = .err (.notMounted "v") ∧
    ((Unmount baseDriver worldUnattached "v").2).log = [.disksGet "v"] ∧
    Event.isCloudDiskOp (.disksGet "v") = true := by
  refine ⟨?_, ?_, rfl⟩ <;> decide

/-- C3 (amended): calling `Unmount` on a volume that is not mounted
fails with the not-mounted error without performing any Filesystem
operation or any *mutating* Cloud Disk operation — only read-only
queries (`Disks.Get`, `Instances.Get`, `GetMountPath`) are made. -/
theorem unmount_not_mounted_guard
    (d : GceDriver) (w : World) (id : String) (vol : GceVolume)
    (h : (getVolume d w id).1 = .ok vol) (hp : vol.path = "") :
    (Unmount d w id).1 = .err (.notMounted id) ∧
    w.readOnlyExtends (Unmount d w id).2 := by
  rcases hgv : getVolume d w id with ⟨r, w₂⟩
  rw [hgv] at h
  dsimp only at h
  subst h
  have hro := getVolume_world d w id
  rw [hgv] at hro
  dsimp only at hro
  constructor
  · simp [Unmount, hgv, hp]
  · simpa [Unmount, hgv, hp] using hro

/-- Witness for C3's amended statement at a concrete world. -/
theorem unmount_not_mounted_guard_witness :
    (Unmount baseDriver worldUnattached "v").1 = .err (.notMounted "v") ∧
    worldUnattached.readOnlyExtends (Unmount baseDriver worldUnattached "v").2 :=
  unmount_not_mounted_guard baseDriver worldUnattached "v"
    { name := "v", path := "", ready := false, diskURI := "link-v",
      devicePath := "" }
    (by decide) (by decide)

/-- Counterexample for C5: at a concrete world where `vol3`-style state
holds (`v` attached, its device's mount point unresolvable), `Mount`
does fail with the provider error — but `Get` *also* fails with that
error instead of returning a Volume with `Ready = true, Path = ""` as
the claim asserts. -/
theorem mount_unresolvable_get_fails_counterexample :
    (Mount baseDriver worldMountPathErr "v").1 =
      .res "" (some (.mountInfoError "v")) ∧
    (Get baseDriver worldMountPathErr "v").1 = .err (.mountInfoError "v") ∧
    (Get baseDriver worldMountPathErr "v").1 ≠
      .ok { name := "v", path := "", ready := true } := by
  refine ⟨?_, ?_, ?_⟩ <;> decide

/-- C5 (amended): if the volume is attached to the local instance but
its device's mount point cannot be resolved (`GetMountPath` fails),
`Mount` fails with the mount-info provider error, and a subsequent `Get`
*also* fails with the same provider error — the cloud/local
inconsistency is surfaced, not reported as an attached-unmounted
volume. -/
theorem mount_unresolvable_mountpath
    (d : GceDriver) (w : World) (id : String) (disk : GceDisk)
    (att : AttachedDisk)
    (hd : w.disks.find? (fun dk => dk.name == id) = some disk)
    (hu : stringInSlice disk.users d.instanceURI = true)
    (hio : w.instanceGetOk = true)
    (hfind : w.instanceDisks.find? (fun a => a.source == disk.selfLink) = some att)
    (herr : w.mountPathErr (devicePathFormat att.deviceName) = true) :
    (Mount d w id).1 = .res "" (some (.mountInfoError id)) ∧
    (Get d w id).1 = .err (.mountInfoError id) := by
  have h1 : (getVolume d w id).1 = .err (.mountInfoError id) := by
    unfold getVolume getAttachedDisk World.getMountPath
    simp [World.logEvent, hd, hu, hio, hfind, herr]
  rcases hgv : getVolume d w id with ⟨r, w₂⟩
  rw [hgv] at h1
  dsimp only at h1
  subst h1
  exact ⟨by simp [Mount, hgv], by simp [Get, hgv]⟩

/-- Witness for C5's amended statement at a concrete world. -/
theorem mount_unresolvable_mountpath_witness :
    (Mount baseDriver worldMountPathErr "v").1 =
      .res "" (some (.mountInfoError "v")) ∧
    (Get baseDriver worldMountPathErr "v").1 = .err (.mountInfoError "v") :=
  mount_unresolvable_mountpath baseDriver worldMountPathErr "v"
    { name := "v", selfLink := "link-v", users := ["me"] }
    { deviceName := "v", source := "link-v" }
    (by decide) (by decide) (by decide) (by decide) (by decide)

/-- C7: during `Unmount`, if unmounting the device succeeds but removing
the mount-point directory fails, the failure is non-fatal: `unmountDisk`
still succeeds (the code only logs a warning), the call proceeds to
detach the disk (the detach invocation appears in the capability log),
and no directory-removal error reaches the caller — with a succeeding
detach the whole call returns success. -/
theorem unmount_removeDir_failure_nonfatal
    (d : GceDriver) (w : World) (id : String) (vol : GceVolume)
    (h : (getVolume d w id).1 = .ok vol) (hp : vol.path ≠ "")
    (hu : w.fsUnmountOk = true) (hr : w.fsRemoveDirOk = false)
    (hdc : w.detachCallOk = true)
    (hds : waitForOp w.detachStatus = .ok ()) :
    (∃ v', (unmountDisk d (getVolume d w id).2 vol).1 = .ok v') ∧
    (Unmount d w id).1 = .ok () ∧
    (.instancesDetach vol.name) ∈ ((Unmount d w id).2).log := by
  rcases hgv : getVolume d w id with ⟨r, w₂⟩
  rw [hgv] at h
  dsimp only at h
  subst h
  obtain ⟨δ, hw₂, -⟩ := by
    have hro := getVolume_world d w id
    rw [hgv] at hro
    exact hro
  dsimp only at hw₂
  subst hw₂
  have hpb : (vol.path == "") = false := by
    simpa using hp
  refine ⟨?_, ?_, ?_⟩
  · simp [unmountDisk, World.logEvent, World.withLog, hu]
  · simp [Unmount, hgv, hpb, unmountDisk, detachDisk, World.logEvent,
      World.withLog, World.applyFsUnmount, World.applyDetach, hu, hdc, hds]
  · simp [Unmount, hgv, hpb, unmountDisk, detachDisk, World.logEvent,
      World.withLog, World.applyFsUnmount, World.applyDetach, hu, hdc, hds]

/-- Witness for C7 at a concrete mounted world whose directory removal
fails. -/
theorem unmount_removeDir_failure_nonfatal_witness :
    (∃ v', (unmountDisk baseDriver
      (getVolume baseDriver worldRemoveDirFails "v").2
      { name := "v", path := "/mnt/v", ready := true, diskURI := "link-v",
        devicePath := "/dev/disk/by-id/google-v" }).1 = .ok v') ∧
    (Unmount baseDriver worldRemoveDirFails "v").1 = .ok () ∧
    (.instancesDetach "v") ∈ ((Unmount baseDriver worldRemoveDirFails "v").2).log :=
  unmount_removeDir_failure_nonfatal baseDriver worldRemoveDirFails "v"
    { name := "v", path := "/mnt/v", ready := true, diskURI := "link-v",
      devicePath := "/dev/disk/by-id/google-v" }
    (by decide) (by decide) (by decide) (by decide) (by decide) (by rfl)

/-- `getDiskType` performs at most a read-only listing: its output world
is the input world plus read events. -/
theorem getDiskType_world (w : World) (c : Option (List DiskType)) (n : String) :
    ∃ δ, (getDiskType w c n).2.2 = w.withLog δ ∧ δ.all Event.isRead = true := by
  have hnone : ∃ δ, (getDiskTypeLoop w n false none).2.2 = w.withLog δ ∧
      δ.all Event.isRead = true := by
    cases hload : w.diskTypesLoadOk with
    | false =>
      refine ⟨[.diskTypesList], ?_, rfl⟩
      simp [getDiskTypeLoop, loadDiskTypes, World.logEvent, World.withLog, hload]
    | true =>
      cases hf : findDiskType w.diskTypesListing n with
      | some dt =>
        refine ⟨[.diskTypesList], ?_, rfl⟩
        simp [getDiskTypeLoop, loadDiskTypes, World.logEvent, World.withLog, hload, hf]
      | none =>
        refine ⟨[.diskTypesList], ?_, rfl⟩
        simp [getDiskTypeLoop, loadDiskTypes, World.logEvent, World.withLog, hload, hf]
  unfold getDiskType
  cases c with
  | none => exact hnone
  | some m =>
    cases hf : findDiskType m n with
    | some dt =>
      refine ⟨[], ?_, rfl⟩
      simp [getDiskTypeLoop, hf, World.withLog]
    | none =>
      obtain ⟨δ, h1, h2⟩ := hnone
      refine ⟨δ, ?_, h2⟩
      rw [← h1]
      congr 1
      simp [getDiskTypeLoop, hf]

/-- A `getDiskType` lookup that misses both the current cache and the
(successfully) reloaded listing: one listing call, then the not-found
error with the cache left invalidated. -/
theorem getDiskType_miss (w : World) (cache : Option (List DiskType))
    (name : String)
    (hload : w.diskTypesLoadOk = true)
    (hmiss : findDiskType w.diskTypesListing name = none)
    (hcache : ∀ m, cache = some m → findDiskType m name = none) :
    getDiskType w cache name =
      (.error (.diskTypeNotFound name), none, w.logEvent .diskTypesList) := by
  unfold getDiskType
  cases cache with
  | none => simp [getDiskTypeLoop, loadDiskTypes, World.logEvent, hload, hmiss]
  | some m =>
    simp [getDiskTypeLoop, loadDiskTypes, World.logEvent, hcache m rfl,
      hload, hmiss]

/-- C8: a `getDiskType` lookup that misses triggers at most one full
reload within the call (final conjunct, for every starting cache), and
when the name is absent from the freshly reloaded listing the lookup
returns the not-found error after exactly one listing call — no second
reload is issued. -/
theorem getDiskType_cache_miss_single_reload
    (w : World) (cache : Option (List DiskType)) (name : String)
    (hload : w.diskTypesLoadOk = true)
    (hmiss : findDiskType w.diskTypesListing name = none)
    (hcache : ∀ m, cache = some m → findDiskType m name = none) :
    (getDiskType w cache name).1 = .error (.diskTypeNotFound name) ∧
    ((getDiskType w cache name).2.2).log = w.log ++ [.diskTypesList] ∧
    (∀ c : Option (List DiskType),
      (((getDiskType w c name).2.2).log.count .diskTypesList) ≤
        w.log.count .diskTypesList + 1) := by
  have hmain : getDiskType w cache name =
      (.error (.diskTypeNotFound name), none, w.logEvent .diskTypesList) :=
    getDiskType_miss w cache name hload hmiss hcache
  refine ⟨by simp [hmain], by simp [hmain, World.logEvent], ?_⟩
  intro c
  obtain ⟨δ, hw, hr⟩ := getDiskType_world w c name
  rw [hw]
  simp only [World.withLog, List.count_append]
  have hδ : δ.count Event.diskTypesList ≤ 1 := by
    cases c with
    | none =>
      have h2 : getDiskType w none name =
          (.error (.diskTypeNotFound name), none, w.logEvent .diskTypesList) :=
        getDiskType_miss w none name hload hmiss (by intro m h; cases h)
      rw [h2] at hw
      simp only [World.logEvent, World.withLog] at hw
      have hlog : w.log ++ [Event.diskTypesList] = w.log ++ δ := congrArg World.log hw
      have h3 : [Event.diskTypesList] = δ := List.append_cancel_left hlog
      rw [← h3]
      simp
    | some m =>
      cases hf : findDiskType m name with
      | some dt =>
        have h2 : getDiskType w (some m) name = (.ok dt, some m, w) := by
          simp [getDiskType, getDiskTypeLoop, hf]
        rw [h2] at hw
        simp only [World.withLog] at hw
        have hlog : w.log ++ ([] : List Event) = w.log ++ δ := by
          simpa using congrArg World.log hw
        have h3 : ([] : List Event) = δ := List.append_cancel_left hlog
        rw [← h3]
        simp
      | none =>
        have h2 : getDiskType w (some m) name =
            (.error (.diskTypeNotFound name), none, w.logEvent .diskTypesList) :=
          getDiskType_miss w (some m) name hload hmiss
            (by intro m2 h; injection h with h2; subst h2; exact hf)
        rw [h2] at hw
        simp only [World.logEvent, World.withLog] at hw
        have hlog : w.log ++ [Event.diskTypesList] = w.log ++ δ := congrArg World.log hw
        have h3 : [Event.diskTypesList] = δ := List.append_cancel_left hlog
        rw [← h3]
        simp
  omega

/-- Witness for C8: looking up `hdd` with a stale populated cache in a
world whose listing has only `ssd` yields the not-found error with
exactly one listing call. -/
theorem getDiskType_cache_miss_single_reload_witness :
    (getDiskType worldTypes (some []) "hdd").1 =
      .error (.diskTypeNotFound "hdd") ∧
    ((getDiskType worldTypes (some []) "hdd").2.2).log =
      worldTypes.log ++ [.diskTypesList] ∧
    (∀ c : Option (List DiskType),
      (((getDiskType worldTypes c "hdd").2.2).log.count .diskTypesList) ≤
        worldTypes.log.count .diskTypesList + 1) :=
  getDiskType_cache_miss_single_reload worldTypes (some []) "hdd"
    (by decide) (by decide)
    (by intro m h; injection h with h'; subst h'; decide)

/-- Each fallible option with only recognized keys but bad values is
silently dropped (Go's shadowed `err`), leaving the parsed options
untouched and the world only extended by listing reads. -/
theorem parseVolumeOptionsLoop_bad_values (entries : List (String × String)) :
    ∀ (wc : World) (cache : Option (List DiskType)) (parsed : GceVolumeOptions),
    (∀ kv ∈ entries, kv.1 = "sizeGb" ∨ kv.1 = "type") →
    (∀ kv ∈ entries, kv.1 = "sizeGb" → goParseInt64 kv.2 = none) →
    wc.diskTypesLoadOk = true →
    (∀ kv ∈ entries, kv.1 = "type" → findDiskType wc.diskTypesListing kv.2 = none) →
    (∀ kv ∈ entries, kv.1 = "type" → ∀ m, cache = some m → findDiskType m kv.2 = none) →
    ∃ cache' δ, parseVolumeOptionsLoop wc cache parsed entries =
      (.ok parsed, cache', wc.withLog δ) ∧ δ.all Event.isRead = true := by
  induction entries with
  | nil =>
    intro wc cache parsed _ _ _ _ _
    exact ⟨cache, [], by simp [parseVolumeOptionsLoop, World.withLog], rfl⟩
  | cons kv rest ih =>
    intro wc cache parsed hkeys hsize hload htype hc
    obtain ⟨k, v⟩ := kv
    rcases hkeys (k, v) (by simp) with hk | hk
    · simp only at hk
      subst hk
      have hs : goParseInt64 v = none := hsize ("sizeGb", v) (by simp) rfl
      simp only [parseVolumeOptionsLoop, parseVolumeOption, hs]
      exact ih wc cache parsed (fun kv h => hkeys kv (by simp [h]))
        (fun kv h => hsize kv (by simp [h]))
        hload (fun kv h => htype kv (by simp [h]))
        (fun kv h => hc kv (by simp [h]))
    · simp only at hk
      subst hk
      have hgd : getDiskType wc cache v =
          (.error (.diskTypeNotFound v), none, wc.logEvent .diskTypesList) :=
        getDiskType_miss wc cache v hload
          (htype ("type", v) (by simp) rfl)
          (hc ("type", v) (by simp) rfl)
      simp only [parseVolumeOptionsLoop, parseVolumeOption, hgd]
      obtain ⟨cache', δ', heq, hall⟩ := ih (wc.logEvent .diskTypesList) none parsed
        (fun kv h => hkeys kv (by simp [h]))
        (fun kv h => hsize kv (by simp [h]))
        hload
        (fun kv h => htype kv (by simp [h]))
        (by intro kv h h2 m heq; cases heq)
      refine ⟨cache', .diskTypesList :: δ', ?_, by rw [List.all_cons, hall]; rfl⟩
      rw [heq, logEvent_eq_withLog, withLog_trans]
      rfl

/-- `createDisk` appends exactly the `Disks.Insert` invocation to the
log, whatever the outcome. -/
theorem createDisk_log (w : World) (id : String) (opts : GceVolumeOptions) :
    ((createDisk w id opts).2).log =
      w.log ++ [.disksInsert id opts.sizeGb opts.diskTypeURI] := by
  unfold createDisk
  cases hc : w.insertCallOk with
  | false => simp [World.logEvent, hc]
  | true =>
    rcases hw : waitForOp w.insertStatus with e | u <;>
      simp [World.logEvent, World.applyInsert, hc, hw]

/-- `attachDisk` appends exactly the `Instances.AttachDisk` invocation
to the log, whatever the outcome. -/
theorem attachDisk_log (d : GceDriver) (w : World) (vol : GceVolume) :
    ((attachDisk d w vol).2).log =
      w.log ++ [.instancesAttach vol.name vol.diskURI] := by
  unfold attachDisk
  cases hc : w.attachCallOk with
  | false => simp [World.logEvent, hc]
  | true =>
    rcases hw : waitForOp w.attachStatus with e | u <;>
      simp [World.logEvent, World.applyAttach, hc, hw]

/-- `mountDisk` only appends filesystem invocations to the log. -/
theorem mountDisk_log (d : GceDriver) (w : World) (vol : GceVolume) :
    ∃ δ, ((mountDisk d w vol).2).log = w.log ++ δ := by
  unfold mountDisk
  cases hc : w.fsCreateDirOk with
  | false =>
    exact ⟨[.fsCreateDir (pathJoin d.mountPath vol.name)],
      by simp [World.logEvent, hc]⟩
  | true =>
    cases hm : w.fsMountOk with
    | false =>
      refine ⟨[.fsCreateDir (pathJoin d.mountPath vol.name),
        .fsMount vol.devicePath (pathJoin d.mountPath vol.name)], ?_⟩
      simp [World.logEvent, hc, hm]
    | true =>
      refine ⟨[.fsCreateDir (pathJoin d.mountPath vol.name),
        .fsMount vol.devicePath (pathJoin d.mountPath vol.name)], ?_⟩
      simp [World.logEvent, World.applyFsMount, hc, hm]

/-- C10: a `Create` call whose options use only recognized keys but an
unparseable `sizeGb` value and an unresolvable `type` value does not
fail at the parse step — the parse/resolve errors are discarded (Go's
shadowed `err` stays nil), the options come back as the defaults
(`sizeGb = 10`, empty disk-type reference), and the `Disks.Insert`
invocation issued by the call carries exactly those defaults. -/
theorem create_bad_option_values_use_defaults
    (d : GceDriver) (w : World) (id : String)
    (optsMap : List (String × String))
    (hkeys : ∀ kv ∈ optsMap, kv.1 = "sizeGb" ∨ kv.1 = "type")
    (hsize : ∀ kv ∈ optsMap, kv.1 = "sizeGb" → goParseInt64 kv.2 = none)
    (hload : w.diskTypesLoadOk = true)
    (htype : ∀ kv ∈ optsMap, kv.1 = "type" →
      findDiskType w.diskTypesListing kv.2 = none)
    (hcache : ∀ kv ∈ optsMap, kv.1 = "type" → ∀ m, d.diskTypes = some m →
      findDiskType m kv.2 = none) :
    (∃ cache' w', parseVolumeOptions w d.diskTypes optsMap =
      (.ok { sizeGb := defaultVolumeSizeGb, diskTypeURI := "" }, cache', w')) ∧
    (∃ δ, ((Create d w id optsMap).2.2).log = w.log ++ δ ∧
      (.disksInsert id defaultVolumeSizeGb "") ∈ δ) := by
  obtain ⟨cache', δ₀, hloop, hall⟩ :=
    parseVolumeOptionsLoop_bad_values optsMap w d.diskTypes
      { sizeGb := defaultVolumeSizeGb, diskTypeURI := "" }
      hkeys hsize hload htype hcache
  have hparse : parseVolumeOptions w d.diskTypes optsMap =
      (.ok { sizeGb := defaultVolumeSizeGb, diskTypeURI := "" }, cache',
        w.withLog δ₀) := by
    unfold parseVolumeOptions
    exact hloop
  refine ⟨⟨cache', w.withLog δ₀, hparse⟩, ?_⟩
  unfold Create
  rw [hparse]
  dsimp only
  have hins : ((createDisk (w.withLog δ₀) id
      { sizeGb := defaultVolumeSizeGb, diskTypeURI := "" }).2).log =
      w.log ++ (δ₀ ++ [.disksInsert id defaultVolumeSizeGb ""]) := by
    rw [createDisk_log]
    simp [World.withLog]
  have hmem : (Event.disksInsert id defaultVolumeSizeGb "") ∈
      (δ₀ ++ [.disksInsert id defaultVolumeSizeGb ""]) := by simp
  rcases hcd : createDisk (w.withLog δ₀) id
      { sizeGb := defaultVolumeSizeGb, diskTypeURI := "" } with ⟨cres, w₂⟩
  rw [hcd] at hins
  simp only at hins
  cases cres with
  | error e => exact ⟨_, hins, hmem⟩
  | ok vol =>
    simp only
    rcases had : attachDisk { d with diskTypes := cache' } w₂ vol with ⟨ares, w₃⟩
    have hw₃ : w₃.log = w.log ++
        ((δ₀ ++ [.disksInsert id defaultVolumeSizeGb ""]) ++
          [.instancesAttach vol.name vol.diskURI]) := by
      have h := attachDisk_log { d with diskTypes := cache' } w₂ vol
      rw [had] at h
      simp only at h
      rw [h, hins, List.append_assoc]
    have hmem₃ : (Event.disksInsert id defaultVolumeSizeGb "") ∈
        ((δ₀ ++ [.disksInsert id defaultVolumeSizeGb ""]) ++
          [.instancesAttach vol.name vol.diskURI]) :=
      List.mem_append_left _ hmem
    cases ares with
    | error e => exact ⟨_, hw₃, hmem₃⟩
    | ok vol₂ =>
      dsimp only
      set wf := w₃.logEvent (.fsFormat vol₂.devicePath) with hwf
      have hwflog : wf.log = w.log ++
          (((δ₀ ++ [.disksInsert id defaultVolumeSizeGb ""]) ++
            [.instancesAttach vol.name vol.diskURI]) ++
            [.fsFormat vol₂.devicePath]) := by
        rw [hwf]
        simp [World.logEvent, hw₃, List.append_assoc]
      have hmemf : (Event.disksInsert id defaultVolumeSizeGb "") ∈
          (((δ₀ ++ [.disksInsert id defaultVolumeSizeGb ""]) ++
            [.instancesAttach vol.name vol.diskURI]) ++
            [.fsFormat vol₂.devicePath]) :=
        List.mem_append_left _ hmem₃
      cases hfmt : wf.fsFormatOk with
      | false => exact ⟨_, hwflog, hmemf⟩
      | true =>
        obtain ⟨δm, hm⟩ := mountDisk_log { d with diskTypes := cache' } wf vol₂
        rcases hmd : mountDisk { d with diskTypes := cache' } wf vol₂
          with ⟨mres, w₄⟩
        rw [hmd] at hm
        simp only at hm
        have hw₄ : w₄.log = w.log ++
            ((((δ₀ ++ [.disksInsert id defaultVolumeSizeGb ""]) ++
              [.instancesAttach vol.name vol.diskURI]) ++
              [.fsFormat vol₂.devicePath]) ++ δm) := by
          rw [hm, hwflog, List.append_assoc]
        have hmem₄ : (Event.disksInsert id defaultVolumeSizeGb "") ∈
            ((((δ₀ ++ [.disksInsert id defaultVolumeSizeGb ""]) ++
              [.instancesAttach vol.name vol.diskURI]) ++
              [.fsFormat vol₂.devicePath]) ++ δm) :=
          List.mem_append_left _ hmemf
        cases mres with
        | error e => exact ⟨_, hw₄, hmem₄⟩
        | ok vol₃ => exact ⟨_, hw₄, hmem₄⟩

/-- Witness for C10 at concrete bad option values. -/
theorem create_bad_option_values_use_defaults_witness :
    (∃ cache' w', parseVolumeOptions worldTypes baseDriver.diskTypes
        [("sizeGb", "abc"), ("type", "nope")] =
      (.ok { sizeGb := defaultVolumeSizeGb, diskTypeURI := "" }, cache', w')) ∧
    (∃ δ, ((Create baseDriver worldTypes "vol1"
        [("sizeGb", "abc"), ("type", "nope")]).2.2).log =
      worldTypes.log ++ δ ∧
      (.disksInsert "vol1" defaultVolumeSizeGb "") ∈ δ) :=
  create_bad_option_values_use_defaults baseDriver worldTypes "vol1"
    [("sizeGb", "abc"), ("type", "nope")]
    (by decide) (by decide) (by decide) (by decide)
    (by intro kv h h2 m hm; simp [baseDriver] at hm)

/-- Any unrecognized option key makes the whole option-parsing loop fail
with the invalid-option error naming (the first such) offending key,
after read-only invocations only. -/
theorem parseVolumeOptionsLoop_bad_key (entries : List (String × String)) :
    ∀ (wc : World) (cache : Option (List DiskType)) (parsed : GceVolumeOptions)
      (k v : String), (k, v) ∈ entries → k ≠ "sizeGb" → k ≠ "type" →
    ∃ kb vb cache' δ, (kb, vb) ∈ entries ∧ kb ≠ "sizeGb" ∧ kb ≠ "type" ∧
      parseVolumeOptionsLoop wc cache parsed entries =
        (.error (.invalidOption kb vb), cache', wc.withLog δ) ∧
      δ.all Event.isRead = true := by
  induction entries with
  | nil => intro wc cache parsed k v hmem _ _; cases hmem
  | cons hd rest ih =>
    intro wc cache parsed k v hmem hk1 hk2
    obtain ⟨k₀, v₀⟩ := hd
    by_cases h0 : k₀ = "sizeGb"
    · subst h0
      have hmem' : (k, v) ∈ rest := by
        rcases List.mem_cons.mp hmem with heq | h
        · cases heq
          exact absurd rfl hk1
        · exact h
      cases hp : goParseInt64 v₀ with
      | some n =>
        simp only [parseVolumeOptionsLoop, parseVolumeOption, hp]
        obtain ⟨kb, vb, cache', δ, hmemb, hb1, hb2, heq, hall⟩ :=
          ih wc cache { parsed with sizeGb := n } k v hmem' hk1 hk2
        exact ⟨kb, vb, cache', δ, List.mem_cons_of_mem _ hmemb, hb1, hb2,
          heq, hall⟩
      | none =>
        simp only [parseVolumeOptionsLoop, parseVolumeOption, hp]
        obtain ⟨kb, vb, cache', δ, hmemb, hb1, hb2, heq, hall⟩ :=
          ih wc cache parsed k v hmem' hk1 hk2
        exact ⟨kb, vb, cache', δ, List.mem_cons_of_mem _ hmemb, hb1, hb2,
          heq, hall⟩
    · by_cases h1 : k₀ = "type"
      · subst h1
        have hmem' : (k, v) ∈ rest := by
          rcases List.mem_cons.mp hmem with heq | h
          · cases heq
            exact absurd rfl hk2
          · exact h
        rcases hgd : getDiskType wc cache v₀ with ⟨gres, cache₂, w₂⟩
        have hw₂ : ∃ δ₂, w₂ = wc.withLog δ₂ ∧ δ₂.all Event.isRead = true := by
          obtain ⟨δ₂, h, hall₂⟩ := getDiskType_world wc cache v₀
          rw [hgd] at h
          exact ⟨δ₂, h, hall₂⟩
        obtain ⟨δ₂, hw₂eq, hall₂⟩ := hw₂
        cases gres with
        | ok dt =>
          simp only [parseVolumeOptionsLoop, parseVolumeOption, hgd]
          obtain ⟨kb, vb, cache', δ, hmemb, hb1, hb2, heq, hall⟩ :=
            ih w₂ cache₂ { parsed with diskTypeURI := dt.selfLink } k v
              hmem' hk1 hk2
          subst hw₂eq
          rw [withLog_trans] at heq
          exact ⟨kb, vb, cache', δ₂ ++ δ, List.mem_cons_of_mem _ hmemb,
            hb1, hb2, heq, by simp_all [List.all_append]⟩
        | error e =>
          simp only [parseVolumeOptionsLoop, parseVolumeOption, hgd]
          obtain ⟨kb, vb, cache', δ, hmemb, hb1, hb2, heq, hall⟩ :=
            ih w₂ cache₂ parsed k v hmem' hk1 hk2
          subst hw₂eq
          rw [withLog_trans] at heq
          exact ⟨kb, vb, cache', δ₂ ++ δ, List.mem_cons_of_mem _ hmemb,
            hb1, hb2, heq, by simp_all [List.all_append]⟩
      · have hdef : parseVolumeOption wc cache parsed k₀ v₀ =
            (.error (), cache, wc) := by
          simp [parseVolumeOption, h0, h1]
        simp only [parseVolumeOptionsLoop, hdef]
        refine ⟨k₀, v₀, cache, [], by simp, h0, h1, ?_, rfl⟩
        simp [World.withLog]

/-- C6: `Create` with any option key outside the recognized schema
(`sizeGb`, `type`) fails the whole call with the invalid-option error
naming an offending key (the first in iteration order), and performs no
side effect: no disk insert, attach, format, mount, or any other
state-changing capability invocation occurs — only read-only queries. -/
theorem create_unknown_option_fails
    (d : GceDriver) (w : World) (id : String)
    (optsMap : List (String × String)) (k v : String)
    (hmem : (k, v) ∈ optsMap) (hk1 : k ≠ "sizeGb") (hk2 : k ≠ "type") :
    (∃ kb vb, (kb, vb) ∈ optsMap ∧ kb ≠ "sizeGb" ∧ kb ≠ "type" ∧
      (Create d w id optsMap).1 = .err (.invalidOption kb vb)) ∧
    w.readOnlyExtends (Create d w id optsMap).2.2 := by
  obtain ⟨kb, vb, cache', δ, hmemb, hb1, hb2, heq, hall⟩ :=
    parseVolumeOptionsLoop_bad_key optsMap w d.diskTypes
      { sizeGb := defaultVolumeSizeGb, diskTypeURI := "" } k v hmem hk1 hk2
  have hparse : parseVolumeOptions w d.diskTypes optsMap =
      (.error (.invalidOption kb vb), cache', w.withLog δ) := heq
  have hcreate : Create d w id optsMap =
      (.err (.invalidOption kb vb), { d with diskTypes := cache' },
        w.withLog δ) := by
    unfold Create
    rw [hparse]
  exact ⟨⟨kb, vb, hmemb, hb1, hb2, by simp [hcreate]⟩,
    ⟨δ, by simp [hcreate], hall⟩⟩

/-- Witness for C6 at a concrete bogus option. -/
theorem create_unknown_option_fails_witness :
    (∃ kb vb, (kb, vb) ∈ [("bogus", "x")] ∧ kb ≠ "sizeGb" ∧ kb ≠ "type" ∧
      (Create baseDriver worldTypes "vol2" [("bogus", "x")]).1 =
        .err (.invalidOption kb vb)) ∧
    worldTypes.readOnlyExtends
      (Create baseDriver worldTypes "vol2" [("bogus", "x")]).2.2 :=
  create_unknown_option_fails baseDriver worldTypes "vol2" [("bogus", "x")]
    "bogus" "x" (by simp) (by decide) (by decide)

theorem pathJoin_ne_empty (a b : String) : pathJoin a b ≠ "" := by
  unfold pathJoin
  intro h
  have h2 := congrArg String.length h
  rw [String.length_append, String.length_append] at h2
  have h3 : ("/" : String).length = 1 := rfl
  have h4 : ("" : String).length = 0 := rfl
  omega

/-- Forward computation of `getVolume` when the disk is not found. -/
theorem getVolume_noDisk (d : GceDriver) (w : World) (id : String)
    (hd : w.disks.find? (fun dk => dk.name == id) = none) :
    getVolume d w id = (.err (.diskGetError id), w.logEvent (.disksGet id)) := by
  unfold getVolume
  simp [World.logEvent, hd]

/-- Forward computation of `getVolume` when the disk is not attached to
the local instance. -/
theorem getVolume_unattached (d : GceDriver) (w : World) (id : String)
    (disk : GceDisk)
    (hd : w.disks.find? (fun dk => dk.name == id) = some disk)
    (hu : stringInSlice disk.users d.instanceURI = false) :
    getVolume d w id =
      (.ok { name := disk.name, path := "", ready := false,
             diskURI := disk.selfLink, devicePath := "" },
       w.logEvent (.disksGet id)) := by
  unfold getVolume
  simp [World.logEvent, hd, hu]

/-- Forward computation of `getVolume` when the disk is attached, the
instance is consistent, and `GetMountPath` does not fail: the returned
volume carries the mount-table lookup as its path. -/
theorem getVolume_attached (d : GceDriver) (w : World) (id : String)
    (disk : GceDisk) (att : AttachedDisk)
    (hd : w.disks.find? (fun dk => dk.name == id) = some disk)
    (hu : stringInSlice disk.users d.instanceURI = true)
    (hio : w.instanceGetOk = true)
    (hfind : w.instanceDisks.find? (fun a => a.source == disk.selfLink) =
      some att)
    (hmp : w.mountPathErr (devicePathFormat att.deviceName) = false) :
    getVolume d w id =
      (.ok { name := disk.name,
             path := (((w.mounts.find?
               (fun m => m.1 == devicePathFormat att.deviceName)).map
                 (fun m => m.2)).getD ""),
             ready := true, diskURI := disk.selfLink,
             devicePath := devicePathFormat att.deviceName },
       ((w.logEvent (.disksGet id)).logEvent .instancesGet).logEvent
         (.getMountPath (devicePathFormat att.deviceName))) := by
  unfold getVolume getAttachedDisk World.getMountPath
  simp [World.logEvent, hd, hu, hio, hfind, hmp]

/-- Inversion of a successful `attachDisk`. -/
theorem attachDisk_ok_inv (d : GceDriver) (w : World) (vol vol₂ : GceVolume)
    (w₃ : World) (h : attachDisk d w vol = (.ok vol₂, w₃)) :
    vol₂ = { vol with devicePath := devicePathFormat vol.name,
                      ready := true } ∧
    w₃ = (w.logEvent (.instancesAttach vol.name vol.diskURI)).applyAttach
      vol.name vol.diskURI d.instanceURI := by
  unfold attachDisk at h
  dsimp only at h
  split at h
  · split at h
    · simp at h
    · rw [Prod.mk.injEq] at h
      obtain ⟨hv, hw⟩ := h
      rw [Except.ok.injEq] at hv
      exact ⟨hv.symm, hw.symm⟩
  · simp at h

/-- Inversion of a successful `mountDisk`. -/
theorem mountDisk_ok_inv (d : GceDriver) (w : World) (vol vol₃ : GceVolume)
    (w₄ : World) (h : mountDisk d w vol = (.ok vol₃, w₄)) :
    vol₃ = { vol with path := pathJoin d.mountPath vol.name } ∧
    w₄ = ((w.logEvent (.fsCreateDir (pathJoin d.mountPath vol.name))).logEvent
      (.fsMount vol.devicePath (pathJoin d.mountPath vol.name))).applyFsMount
        vol.devicePath (pathJoin d.mountPath vol.name) := by
  unfold mountDisk at h
  dsimp only at h
  split at h
  · split at h
    · rw [Prod.mk.injEq] at h
      obtain ⟨hv, hw⟩ := h
      rw [Except.ok.injEq] at hv
      exact ⟨hv.symm, hw.symm⟩
    · simp at h
  · simp at h

theorem find?_map_name (l : List GceDisk) (g : GceDisk → GceDisk)
    (hg : ∀ x, (g x).name = x.name) (id : String) (disk : GceDisk)
    (h : l.find? (fun dk => dk.name == id) = some disk) :
    (l.map g).find? (fun dk => dk.name == id) = some (g disk) := by
  rw [List.find?_map]
  have hc : ((fun dk => dk.name == id) ∘ g) = (fun dk => dk.name == id) := by
    funext x
    simp [Function.comp, hg]
  rw [hc, h]
  rfl

theorem find?_append_right {α : Type} (l₁ l₂ : List α) (p : α → Bool)
    (h : l₁.find? p = none) : (l₁ ++ l₂).find? p = l₂.find? p := by
  rw [List.find?_append, h]
  rfl

theorem mount_success_then_mounted
    (d : GceDriver) (w : World) (id p : String)
    (hinst : w.instanceGetOk = true)
    (hmp : ∀ dev, w.mountPathErr dev = false)
    (hcons : ∀ dk, w.disks.find? (fun x => x.name == id) = some dk →
      stringInSlice dk.users d.instanceURI = false →
      ∀ a ∈ w.instanceDisks, (a.source == dk.selfLink) = false)
    (h1 : (Mount d w id).1 = .res p none) :
    p ≠ "" ∧ ∃ vol', (getVolume d (Mount d w id).2 id).1 = .ok vol' ∧
      vol'.path = p := by
  cases hdw : w.disks.find? (fun dk => dk.name == id) with
  | none =>
    have hgv := getVolume_noDisk d w id hdw
    unfold Mount at h1
    rw [hgv] at h1
    simp at h1
  | some disk =>
    by_cases hu : stringInSlice disk.users d.instanceURI = true
    · cases hfa : w.instanceDisks.find? (fun a => a.source == disk.selfLink) with
      | none =>
        have hgv : getVolume d w id =
            (.panics, (w.logEvent (.disksGet id)).logEvent .instancesGet) := by
          unfold getVolume getAttachedDisk
          simp [World.logEvent, hdw, hu, hinst, hfa]
        unfold Mount at h1
        rw [hgv] at h1
        simp at h1
      | some att =>
        have hgv := getVolume_attached d w id disk att hdw hu hinst hfa
          (hmp _)
        by_cases hmpe : (((w.mounts.find?
            (fun m => m.1 == devicePathFormat att.deviceName)).map
              (fun m => m.2)).getD "") = ""
        · unfold Mount at h1 ⊢
          rw [hgv] at h1 ⊢
          dsimp only at h1 ⊢
          simp only [hmpe, bne_self_eq_false, Bool.false_eq_true, if_false,
            Bool.not_true] at h1 ⊢
          split at h1
          · next e w₄ heq =>
            simp at h1
          · next vol₃ w₄ heq =>
            obtain ⟨hvol₃, hw₄⟩ := mountDisk_ok_inv _ _ _ _ _ heq
            dsimp only at h1
            rw [MountResult.res.injEq] at h1
            obtain ⟨hp, -⟩ := h1
            subst hvol₃
            dsimp only at hp
            subst hw₄
            dsimp only
            constructor
            · rw [← hp]
              exact pathJoin_ne_empty _ _
            · have hgv2 := getVolume_attached d
                ((((((w.logEvent (.disksGet id)).logEvent
                  .instancesGet).logEvent
                  (.getMountPath (devicePathFormat att.deviceName))).logEvent
                  (.fsCreateDir (pathJoin d.mountPath disk.name))).logEvent
                  (.fsMount (devicePathFormat att.deviceName)
                    (pathJoin d.mountPath disk.name))).applyFsMount
                  (devicePathFormat att.deviceName)
                  (pathJoin d.mountPath disk.name))
                id disk att
                (by simpa [World.applyFsMount, World.logEvent] using hdw)
                hu
                (by simpa [World.applyFsMount, World.logEvent] using hinst)
                (by simpa [World.applyFsMount, World.logEvent] using hfa)
                (by simpa [World.applyFsMount, World.logEvent] using hmp _)
              refine ⟨_, by rw [hgv2], ?_⟩
              simp only [World.applyFsMount, World.logEvent]
              simpa using hp
        · unfold Mount at h1
          rw [hgv] at h1
          dsimp only at h1
          rw [if_pos (by simpa using hmpe)] at h1
          simp at h1
    · have hub : stringInSlice disk.users d.instanceURI = false := by
        simpa using hu
      have hgv := getVolume_unattached d w id disk hdw hub
      unfold Mount at h1 ⊢
      rw [hgv] at h1 ⊢
      dsimp only at h1 ⊢
      simp only [bne_self_eq_false, Bool.false_eq_true, if_false,
        Bool.not_false, if_true] at h1 ⊢
      split at h1
      · next e w₃ heqA =>
        simp at h1
      · next vol₂ w₃ heqA =>
        obtain ⟨hvol₂, hw₃⟩ := attachDisk_ok_inv _ _ _ _ _ heqA
        subst hvol₂
        subst hw₃
        split at h1
        · next e w₄ heqM =>
          simp at h1
        · next vol₃ w₄ heqM =>
          obtain ⟨hvol₃, hw₄⟩ := mountDisk_ok_inv _ _ _ _ _ heqM
          dsimp only at h1
          rw [MountResult.res.injEq] at h1
          obtain ⟨hp, -⟩ := h1
          subst hvol₃
          dsimp only at hp
          subst hw₄
          dsimp only
          constructor
          · rw [← hp]
            exact pathJoin_ne_empty _ _
          · have hfnone : w.instanceDisks.find?
                (fun a => a.source == disk.selfLink) = none := by
              rw [List.find?_eq_none]
              intro a ha
              simp [hcons disk hdw hub a ha]
            have hd4 : (w.disks.map (fun dk =>
                if dk.selfLink == disk.selfLink then
                  { dk with users := dk.users ++ [d.instanceURI] }
                else dk)).find? (fun dk => dk.name == id) =
                some { disk with users := disk.users ++ [d.instanceURI] } := by
              have := find?_map_name w.disks (fun dk =>
                if dk.selfLink == disk.selfLink then
                  { dk with users := dk.users ++ [d.instanceURI] }
                else dk)
                (by intro x; cases hx : x.selfLink == disk.selfLink <;>
                  simp [hx]) id disk hdw
              simpa using this
            have hf4 : (w.instanceDisks ++
                [({ deviceName := disk.name, source := disk.selfLink } :
                  AttachedDisk)]).find?
                (fun a => a.source == disk.selfLink) =
                some ({ deviceName := disk.name, source := disk.selfLink } :
                  AttachedDisk) := by
              rw [find?_append_right _ _ _ hfnone]
              simp
            have hgv2 := getVolume_attached d
              (((((((w.logEvent (.disksGet id)).logEvent
                (.instancesAttach disk.name disk.selfLink)).applyAttach
                disk.name disk.selfLink d.instanceURI).logEvent
                (.fsCreateDir (pathJoin d.mountPath disk.name))).logEvent
                (.fsMount (devicePathFormat disk.name)
                  (pathJoin d.mountPath disk.name))).applyFsMount
                (devicePathFormat disk.name)
                (pathJoin d.mountPath disk.name)))
              id { disk with users := disk.users ++ [d.instanceURI] }
              { deviceName := disk.name, source := disk.selfLink }
              (by simpa [World.applyFsMount, World.applyAttach,
                World.logEvent] using hd4)
              (by simp [stringInSlice])
              (by simpa [World.applyFsMount, World.applyAttach,
                World.logEvent] using hinst)
              (by simpa [World.applyFsMount, World.applyAttach,
                World.logEvent] using hf4)
              (by simpa [World.applyFsMount, World.applyAttach,
                World.logEvent] using hmp _)
            refine ⟨_, by rw [hgv2], ?_⟩
            simp only [World.applyFsMount, World.applyAttach, World.logEvent]
            simpa using hp

/-- C2: if `Mount` succeeds (returns a path with no error), an
immediately repeated `Mount` for the same name returns the same path
together with the already-mounted error, and performs no new attach or
mount side effect — the world state is unchanged and only read-only
queries are logged.  The hypotheses say the environment is stable across
the two calls: `Instances.Get` keeps succeeding, `GetMountPath` does not
fail, and the cloud state is consistent (a disk not listing the local
instance among its `Users` has no attachment entry pointing at it). -/
theorem mount_idempotent_second_already_mounted
    (d : GceDriver) (w : World) (id p : String)
    (h1 : (Mount d w id).1 = .res p none)
    (hinst : w.instanceGetOk = true)
    (hmp : ∀ dev, w.mountPathErr dev = false)
    (hcons : ∀ dk, w.disks.find? (fun x => x.name == id) = some dk →
      stringInSlice dk.users d.instanceURI = false →
      ∀ a ∈ w.instanceDisks, (a.source == dk.selfLink) = false) :
    (Mount d (Mount d w id).2 id).1 = .res p (some (.alreadyMounted id p)) ∧
    ((Mount d w id).2).readOnlyExtends (Mount d (Mount d w id).2 id).2 := by
  obtain ⟨hpne, vol', hvol', hpath⟩ :=
    mount_success_then_mounted d w id p hinst hmp hcons h1
  set w1 := (Mount d w id).2 with hw1
  rcases hgv2 : getVolume d w1 id with ⟨g2, w₅⟩
  rw [hgv2] at hvol'
  dsimp only at hvol'
  subst hvol'
  have hcond : (vol'.path != "") = true := by
    rw [hpath]
    simpa using hpne
  have hro := getVolume_world d w1 id
  rw [hgv2] at hro
  dsimp only at hro
  constructor
  · unfold Mount
    rw [hgv2]
    dsimp only
    rw [if_pos hcond, hpath]
  · unfold Mount
    rw [hgv2]
    dsimp only
    rw [if_pos hcond]
    exact hro

/-- Witness for C2: mounting the unattached disk `v` succeeds at
`/mnt/v`; the immediate second `Mount` returns the same path with the
already-mounted error and leaves the world unchanged up to read
events. -/
theorem mount_idempotent_second_already_mounted_witness :
    (Mount baseDriver (Mount baseDriver worldUnattached "v").2 "v").1 =
      .res "/mnt/v" (some (.alreadyMounted "v" "/mnt/v")) ∧
    ((Mount baseDriver worldUnattached "v").2).readOnlyExtends
      (Mount baseDriver (Mount baseDriver worldUnattached "v").2 "v").2 :=
  mount_idempotent_second_already_mounted baseDriver worldUnattached "v"
    "/mnt/v" (by decide) (by decide) (fun dev => rfl)
    (by intro dk hdk hfalse a ha; cases ha)

end Cloudvol
